import Mathlib

/-!
Shallow embedding of the Lumis digital-twin web client
(`src/web/src/App.tsx`, `src/web/src/pages/Syncing.jsx`,
`src/web/src/pages/Dashboard.jsx`).

JavaScript string primitives used by the pages (`includes`, `trim`,
`replace` with a string pattern, `substring(0, n)`) are modelled over
`List Char`; fallible `fetch`/`res.json()` pairs are modelled as
`Except Unit` values fed to the poll/handler step functions; React
state updates become explicit state-passing, and `setInterval` /
`clearInterval` become an `intervalActive` flag consumed by a tick
function, with scheduled `navigate` calls accumulated in a list.
-/

namespace Lumis

/-- JS `String.prototype.includes` on char lists: `sub` occurs contiguously. -/
def hasSubList (sub : List Char) : List Char → Bool
  | [] => sub.isEmpty
  | c :: rest => sub.isPrefixOf (c :: rest) || hasSubList sub rest

/-- JS `s.includes(sub)` for strings. -/
def jsIncludes (s sub : String) : Bool :=
  hasSubList sub.toList s.toList

/-- JS `s.includes(c)` where the needle is a single code point. -/
def jsIncludesChar (s : String) (c : Char) : Bool :=
  s.toList.contains c

/-- Whitespace characters removed by JS `String.prototype.trim`. -/
def isWsChar (c : Char) : Bool :=
  c = ' ' || c = '\t' || c = '\n' || c = '\r' || c = '\x0b' || c = '\x0c'

/-- JS `s.trim()`: strip leading and trailing whitespace. -/
def jsTrim (s : String) : String :=
  String.mk (((s.toList.dropWhile isWsChar).reverse.dropWhile isWsChar).reverse)

/-- Remove the first occurrence of the char `c`, as JS
`s.replace(c, '')` does for a one-code-point string pattern. -/
def removeFirstCharList (c : Char) : List Char → List Char
  | [] => []
  | x :: rest => if x = c then rest else x :: removeFirstCharList c rest

/-- JS `s.replace(c, '')` for a one-code-point pattern string. -/
def jsRemoveFirstChar (s : String) (c : Char) : String :=
  String.mk (removeFirstCharList c s.toList)

/-- JS `s.substring(0, n)`. -/
def jsSubstring0 (s : String) (n : Nat) : String :=
  String.mk (s.toList.take n)

/-- JS truthiness of a nullable string: `!x` is true for
`null`/`undefined` and for the empty string, so a guard like
`if (!projectId) return` also fires on `project_id = ''`. -/
def jsTruthyStr : Option String → Bool
  | none => false
  | some s => s != ""

/-- The body of an ingest-status poll response,
`{ step?, status, logs }`, as consumed by both `Syncing.jsx` variants
(the first variant's state has no `step` field: `step := none`). -/
structure StatusData where
  step : Option String
  status : String
  logs : List String
  deriving Repr, DecidableEq

/-- The React-visible state of a mounted `Syncing` component:
the `status` state hook, whether the `setInterval` timer is still
registered, and the list of `navigate` targets scheduled so far. -/
structure SyncState where
  status : StatusData
  intervalActive : Bool
  navScheduled : List String
  deriving Repr, DecidableEq

/-- An event of the interleaved semantics of the polling effect:
either the interval fires (issuing a new poll only while the interval
is still registered), or one in-flight poll settles with the outcome
of its `fetch` + `res.json()`. -/
inductive AsyncEvent where
  | fire
  | deliver (resp : Except Unit StatusData)
  deriving Repr

/-- Syncing state under the interleaved semantics: `pending` counts
the polls issued whose responses have not yet arrived.  A delivered
response is processed by the rest of the `async` callback body even if
the interval was cleared after that poll was issued: `clearInterval`
stops only future firings. -/
structure AsyncState where
  status : StatusData
  intervalActive : Bool
  pending : Nat
  navScheduled : List String
  deriving Repr, DecidableEq

/-! ### Syncing.jsx, first variant (file lines 4-41)

Poll period 1500 ms; redirect checks both `status === 'completed'`
and a log line containing `'DONE'`; navigation delayed 2000 ms. -/

namespace SyncingA

def pollIntervalMs : Nat := 1500

def navDelayMs : Nat := 2000

/-- `useState({ logs: [], status: 'processing' })`. -/
def initStatus : StatusData :=
  { step := none, status := "processing", logs := [] }

/-- Mounting the component with the given `project_id` query param:
`if (!projectId) return` makes the effect register the interval only
when `projectId` is truthy (non-null and non-empty). -/
def mount (projectId : Option String) : SyncState :=
  { status := initStatus, intervalActive := jsTruthyStr projectId,
    navScheduled := [] }

/-- `data.status === 'completed' || data.logs.some(l => l.includes('DONE'))`. -/
def isDone (d : StatusData) : Bool :=
  d.status == "completed" || d.logs.any (fun l => jsIncludes l "DONE")

/-- One firing of the interval callback, given the outcome of
`fetch` + `res.json()` (`.error` for a network or parse failure,
caught by the `try`/`catch`).  Returns the new state and whether a
poll was actually issued (the callback only runs while the interval
is registered).  On success the whole `status` object is replaced by
the response; when the done condition holds the interval is cleared
and one delayed `navigate('/dashboard')` is scheduled. -/
def tick (st : SyncState) (resp : Except Unit StatusData) : SyncState × Bool :=
  if st.intervalActive then
    match resp with
    | .error _ => (st, true)
    | .ok d =>
      let st1 : SyncState := { st with status := d }
      if isDone d then
        ({ st1 with intervalActive := false,
                    navScheduled := st1.navScheduled ++ ["/dashboard"] }, true)
      else (st1, true)
  else (st, false)

/-- The cleanup returned by the effect: `() => clearInterval(interval)`. -/
def cleanup (st : SyncState) : SyncState :=
  { st with intervalActive := false }

/-- What the effect registers as cleanup: nothing when `projectId` is
falsy — null or empty, the effect returns early — and the
interval-clearing cleanup otherwise. -/
def effectCleanup (projectId : Option String) : Option (SyncState → SyncState) :=
  if jsTruthyStr projectId then some cleanup else none

/-- Run a sequence of interval firings, counting the polls issued. -/
def runTicks (st : SyncState) : List (Except Unit StatusData) → SyncState × Nat
  | [] => (st, 0)
  | r :: rs =>
    let (st1, issued) := tick st r
    let (st2, n) := runTicks st1 rs
    (st2, (if issued then 1 else 0) + n)

/-- Mounting under the interleaved semantics. -/
def asyncMount (projectId : Option String) : AsyncState :=
  { status := initStatus, intervalActive := jsTruthyStr projectId,
    pending := 0, navScheduled := [] }

/-- One interleaved event.  A firing issues a poll only while the
interval is registered.  A delivery settles one in-flight poll (a
no-op when none is in flight) and runs the rest of the callback body
regardless of the interval flag, mirroring how an `async` callback
already past its `await` keeps running after `clearInterval`: on
success the status is replaced and, if the done condition holds, the
interval is cleared (a no-op if already cleared) and one delayed
`navigate('/dashboard')` is scheduled. -/
def asyncStep (st : AsyncState) : AsyncEvent → AsyncState
  | .fire =>
    if st.intervalActive then { st with pending := st.pending + 1 } else st
  | .deliver resp =>
    if st.pending = 0 then st
    else
      let st0 : AsyncState := { st with pending := st.pending - 1 }
      match resp with
      | .error _ => st0
      | .ok d =>
        let st1 : AsyncState := { st0 with status := d }
        if isDone d then
          { st1 with intervalActive := false,
                     navScheduled := st1.navScheduled ++ ["/dashboard"] }
        else st1

/-- Run a sequence of interleaved events. -/
def asyncRun (st : AsyncState) : List AsyncEvent → AsyncState
  | [] => st
  | e :: es => asyncRun (asyncStep st e) es

/-- The trace has no overlapping polls: whenever the interval fires,
no poll is still in flight. -/
def serialized (st : AsyncState) : List AsyncEvent → Bool
  | [] => true
  | .fire :: es => (st.pending == 0) && serialized (asyncStep st .fire) es
  | .deliver r :: es => serialized (asyncStep st (.deliver r)) es

end SyncingA

/-! ### Syncing.jsx, second variant (file lines 44-123)

Poll period 1000 ms; redirect checks only `status === 'completed'`;
navigation delayed 1500 ms; the displayed state also has a `step`. -/

namespace SyncingB

def pollIntervalMs : Nat := 1000

def navDelayMs : Nat := 1500

/-- `useState({ step: 'Initializing', logs: [], status: 'processing' })`. -/
def initStatus : StatusData :=
  { step := some "Initializing", status := "processing", logs := [] }

/-- Mounting the component with the given `project_id` query param:
the `if (!projectId) return` guard is a truthiness test. -/
def mount (projectId : Option String) : SyncState :=
  { status := initStatus, intervalActive := jsTruthyStr projectId,
    navScheduled := [] }

/-- `data.status === 'completed'`. -/
def isDone (d : StatusData) : Bool :=
  d.status == "completed"

/-- One firing of the interval callback; see `SyncingA.tick`. -/
def tick (st : SyncState) (resp : Except Unit StatusData) : SyncState × Bool :=
  if st.intervalActive then
    match resp with
    | .error _ => (st, true)
    | .ok d =>
      let st1 : SyncState := { st with status := d }
      if isDone d then
        ({ st1 with intervalActive := false,
                    navScheduled := st1.navScheduled ++ ["/dashboard"] }, true)
      else (st1, true)
  else (st, false)

/-- The cleanup returned by the effect: `() => clearInterval(interval)`. -/
def cleanup (st : SyncState) : SyncState :=
  { st with intervalActive := false }

/-- Cleanup registered by the effect, by `project_id` truthiness:
none for a null or empty id (the effect returns early). -/
def effectCleanup (projectId : Option String) : Option (SyncState → SyncState) :=
  if jsTruthyStr projectId then some cleanup else none

/-- Run a sequence of interval firings, counting the polls issued. -/
def runTicks (st : SyncState) : List (Except Unit StatusData) → SyncState × Nat
  | [] => (st, 0)
  | r :: rs =>
    let (st1, issued) := tick st r
    let (st2, n) := runTicks st1 rs
    (st2, (if issued then 1 else 0) + n)

/-- Mounting under the interleaved semantics. -/
def asyncMount (projectId : Option String) : AsyncState :=
  { status := initStatus, intervalActive := jsTruthyStr projectId,
    pending := 0, navScheduled := [] }

/-- One interleaved event; see `SyncingA.asyncStep`. -/
def asyncStep (st : AsyncState) : AsyncEvent → AsyncState
  | .fire =>
    if st.intervalActive then { st with pending := st.pending + 1 } else st
  | .deliver resp =>
    if st.pending = 0 then st
    else
      let st0 : AsyncState := { st with pending := st.pending - 1 }
      match resp with
      | .error _ => st0
      | .ok d =>
        let st1 : AsyncState := { st0 with status := d }
        if isDone d then
          { st1 with intervalActive := false,
                     navScheduled := st1.navScheduled ++ ["/dashboard"] }
        else st1

/-- Run a sequence of interleaved events. -/
def asyncRun (st : AsyncState) : List AsyncEvent → AsyncState
  | [] => st
  | e :: es => asyncRun (asyncStep st e) es

/-- The trace has no overlapping polls: whenever the interval fires,
no poll is still in flight. -/
def serialized (st : AsyncState) : List AsyncEvent → Bool
  | [] => true
  | .fire :: es => (st.pending == 0) && serialized (asyncStep st .fire) es
  | .deliver r :: es => serialized (asyncStep st (.deliver r)) es

end SyncingB

/-! ### App.tsx: the router -/

/-- The pages a route can render; `redirectTo p` models
`<Navigate to={p} />`. -/
inductive Page where
  | landing
  | auth
  | signUp
  | dashboard
  | syncing
  | redirectTo (path : String)
  deriving Repr, DecidableEq

/-- The route table of `App.tsx`: each `<Route path=... element=... />`
in order, with the `path="*"` fallback rendering `<Navigate to="/" />`. -/
def route (path : String) : Page :=
  if path = "/" then .landing
  else if path = "/login" then .auth
  else if path = "/auth" then .auth
  else if path = "/signup" then .signUp
  else if path = "/dashboard" then .dashboard
  else if path = "/syncing" then .syncing
  else .redirectTo "/"

/-! ### Dashboard.jsx (second variant, file lines 245-537) -/

namespace Dashboard

/-- A supabase session; only `user.id` is consumed. -/
structure Session where
  user_id : String
  deriving Repr, DecidableEq

/-- A row of the `projects` table, with the fields the Dashboard reads. -/
structure Project where
  id : String
  repo_url : String
  last_commit : Option String
  deriving Repr, DecidableEq

/-- One risk entry from the risks endpoint. -/
structure Risk where
  risk_type : String
  description : String
  deriving Repr, DecidableEq

/-- Body of a `/api/risks/:id` response. -/
structure RisksResp where
  status : String
  risks : List Risk
  deriving Repr, DecidableEq

/-- Body of a `/api/ingest/status/:id` response as the boot check
reads it (only the `status` field). -/
structure StatusResp where
  status : String
  deriving Repr, DecidableEq

/-- Everything the async `boot` function consumes: the session lookup,
the project lookup, and the outcomes of the two fetches (`.error` for
a network/parse failure caught by the corresponding `try`/`catch`). -/
structure BootInput where
  session : Option Session
  project : Option Project
  statusResp : Except Unit StatusResp
  risksResp : Except Unit RisksResp
  deriving Repr

/-- The observable outcome of `boot`: the `navigate` target if any,
the resulting `appState`, the `risks` state (initially `[]`), and
whether the risks endpoint was fetched at all. -/
structure BootResult where
  navTarget : Option String
  appState : String
  risks : List Risk
  riskFetchAttempted : Bool
  deriving Repr, DecidableEq

/-- The boot effect (Dashboard.jsx lines 262-294): redirect to
`/login` without a session; `NO_PROJECT` without a project row;
otherwise `READY`, and if the polled ingest status is `'starting'` or
`'processing'` navigate to `/syncing?project_id=` and return before
the risks fetch; otherwise load risks, storing them only when the
response has `status === 'success'`. -/
def boot (inp : BootInput) : BootResult :=
  match inp.session with
  | none => { navTarget := some "/login", appState := "LOADING",
              risks := [], riskFetchAttempted := false }
  | some _ =>
    match inp.project with
    | none => { navTarget := none, appState := "NO_PROJECT",
                risks := [], riskFetchAttempted := false }
    | some p =>
      let currentlySyncing :=
        match inp.statusResp with
        | .ok d => (["starting", "processing"] : List String).contains d.status
        | .error _ => false
      if currentlySyncing then
        { navTarget := some ("/syncing?project_id=" ++ p.id),
          appState := "READY", risks := [], riskFetchAttempted := false }
      else
        { navTarget := none, appState := "READY",
          risks := match inp.risksResp with
                   | .ok d => if d.status = "success" then d.risks else []
                   | .error _ => [],
          riskFetchAttempted := true }

/-- A chat message object; `isThinking` and `thinkingText` are absent
(falsy / undefined) unless the code sets them. -/
structure Message where
  role : String
  content : String
  isThinking : Bool := false
  thinkingText : Option String := none
  deriving Repr, DecidableEq

/-- The brain emoji filtered for in the thinking-log poll. -/
def brain : Char := '🧠'

/-- Poll period of the thinking-log effect (`setInterval(..., 1000)`). -/
def chatPollIntervalMs : Nat := 1000

/-- Guard of the thinking-log effect:
`if (!chatLoading || !projectData?.id) return`. -/
def chatPollActive (chatLoading : Bool) (projectData : Option Project) : Bool :=
  chatLoading && (match projectData with
                  | none => false
                  | some p => p.id != "")

/-- `data.logs.filter(l => l.includes('🧠')).pop()`:
the last log line containing the brain emoji, if any. -/
def lastThought (logs : List String) : Option String :=
  (logs.filter (fun l => jsIncludesChar l brain)).getLast?

/-- The per-message update applied inside `setMessages(prev => prev.map(...))`:
a thinking message gets `thinkingText` set to the thought with the
emoji removed and trimmed; every other message is returned as is. -/
def applyThought (t : String) (m : Message) : Message :=
  if m.isThinking then { m with thinkingText := some (jsTrim (jsRemoveFirstChar t brain)) }
  else m

/-- Body of a `/api/ingest/status/:id` response as the thinking-log
poll reads it (`logs` may be absent). -/
structure ChatPollData where
  status : String
  logs : Option (List String)
  deriving Repr, DecidableEq

/-- One firing of the thinking-log poll (Dashboard.jsx lines 300-316),
given the fetch/parse outcome: on failure the messages are untouched;
on success, if `data.logs` is present and non-empty and some log line
contains the brain emoji, every thinking message's text is updated
from the last such line; otherwise the messages are untouched. -/
def thinkingPollTick (msgs : List Message) (resp : Except Unit ChatPollData) :
    List Message :=
  match resp with
  | .error _ => msgs
  | .ok data =>
    match data.logs with
    | none => msgs
    | some ls =>
      if ls.length > 0 then
        match lastThought ls with
        | some t => msgs.map (applyThought t)
        | none => msgs
      else msgs

/-- The commit-metadata section (Dashboard.jsx lines 441-451): the
shown code text and the indicator colour, both keyed on the truthiness
of `projectData?.last_commit` (a JS string is falsy when empty). -/
def commitDisplay (last_commit : Option String) : String × String :=
  match last_commit with
  | some c => if c = "" then ("PENDING", "#f59e0b")
              else (jsSubstring0 c 7, "#10b981")
  | none => ("PENDING", "#f59e0b")

/-- The chat-relevant component state touched by `handleChat`. -/
structure ChatState where
  messages : List Message
  input : String
  chatLoading : Bool
  deriving Repr, DecidableEq

/-- Body of a `/api/chat` response. -/
structure ChatResponse where
  response : String
  deriving Repr, DecidableEq

/-- `handleChat` (Dashboard.jsx lines 344-379), given the outcome of
the chat fetch (`.error` for a network/parse failure): a no-op when
the trimmed input is empty or a request is already in flight;
otherwise append the user message, clear the input, add the thinking
bubble, and on settlement replace every thinking message with a final
`lumis` message (the response body's `response` on success, the fixed
error text on failure), with `chatLoading` reset in `finally`.
Returns the settled state and whether a request was sent. -/
def handleChat (st : ChatState) (result : Except Unit ChatResponse) :
    ChatState × Bool :=
  if (jsTrim st.input == "") || st.chatLoading then (st, false)
  else
    let userMsg : Message := { role := "user", content := st.input }
    let withUser := st.messages ++ [userMsg]
    let withThinking := withUser ++ [{ role := "lumis", content := "...", isThinking := true }]
    let finalMsgs :=
      match result with
      | .ok data =>
          (withThinking.filter (fun m => !m.isThinking)) ++
            [{ role := "lumis", content := data.response }]
      | .error _ =>
          (withThinking.filter (fun m => !m.isThinking)) ++
            [{ role := "lumis", content := "Error: Could not reach Lumis Core." }]
    ({ messages := finalMsgs, input := "", chatLoading := false }, true)

end Dashboard

/-! ## Helper lemmas -/

theorem syncingA_tick_inactive (st : SyncState) (r : Except Unit StatusData)
    (h : st.intervalActive = false) : SyncingA.tick st r = (st, false) := by
  simp [SyncingA.tick, h]

theorem syncingA_runTicks_inactive (resps : List (Except Unit StatusData))
    (st : SyncState) (h : st.intervalActive = false) :
    SyncingA.runTicks st resps = (st, 0) := by
  induction resps with
  | nil => rfl
  | cons r rs ih => simp [SyncingA.runTicks, syncingA_tick_inactive st r h, ih]

theorem syncingB_tick_inactive (st : SyncState) (r : Except Unit StatusData)
    (h : st.intervalActive = false) : SyncingB.tick st r = (st, false) := by
  simp [SyncingB.tick, h]

theorem syncingB_runTicks_inactive (resps : List (Except Unit StatusData))
    (st : SyncState) (h : st.intervalActive = false) :
    SyncingB.runTicks st resps = (st, 0) := by
  induction resps with
  | nil => rfl
  | cons r rs ih => simp [SyncingB.runTicks, syncingB_tick_inactive st r h, ih]

theorem syncingA_async_nav_invariant (events : List AsyncEvent) (st : AsyncState)
    (hser : SyncingA.serialized st events = true)
    (hp : st.pending ≤ 1)
    (hact : st.intervalActive = true → st.navScheduled = [])
    (hnav : st.navScheduled = [] ∨ st.navScheduled = ["/dashboard"])
    (hfin : st.navScheduled ≠ [] → st.intervalActive = false ∧ st.pending = 0) :
    ((SyncingA.asyncRun st events).navScheduled = [] ∨
      (SyncingA.asyncRun st events).navScheduled = ["/dashboard"]) := by
  induction events generalizing st with
  | nil => exact hnav
  | cons e es ih =>
    cases e with
    | fire =>
      rw [SyncingA.serialized, Bool.and_eq_true, beq_iff_eq] at hser
      obtain ⟨hp0, hser'⟩ := hser
      rw [SyncingA.asyncRun]
      by_cases hI : st.intervalActive = true
      · have hnil := hact hI
        refine ih _ ?_ ?_ ?_ ?_ ?_
        · simpa [SyncingA.asyncStep, hI] using hser'
        · simp [SyncingA.asyncStep, hI, hp0]
        · intro _
          simp [SyncingA.asyncStep, hI, hnil]
        · simp [SyncingA.asyncStep, hI, hnil]
        · intro h
          simp [SyncingA.asyncStep, hI, hnil] at h
      · have hI' : st.intervalActive = false := by
          revert hI; cases st.intervalActive <;> simp
        have hstep : SyncingA.asyncStep st .fire = st := by
          simp [SyncingA.asyncStep, hI']
        rw [hstep] at hser' ⊢
        exact ih st hser' hp hact hnav hfin
    | deliver r =>
      rw [SyncingA.serialized] at hser
      rw [SyncingA.asyncRun]
      by_cases hp0 : st.pending = 0
      · have hstep : SyncingA.asyncStep st (.deliver r) = st := by
          simp [SyncingA.asyncStep, hp0]
        rw [hstep] at hser ⊢
        exact ih st hser hp hact hnav hfin
      · have hnil : st.navScheduled = [] := by
          by_contra hne
          exact hp0 (hfin hne).2
        have hpend1 : st.pending - 1 = 0 := by omega
        match r with
        | .error _ =>
          have hstep : SyncingA.asyncStep st (.deliver (.error ())) =
              { st with pending := st.pending - 1 } := by
            simp [SyncingA.asyncStep, hp0]
          rw [hstep] at hser ⊢
          refine ih _ hser (by simp; omega) (fun _ => hnil) (Or.inl hnil) ?_
          intro h
          exact absurd hnil h
        | .ok d =>
          by_cases hdone : SyncingA.isDone d = true
          · have hstep : SyncingA.asyncStep st (.deliver (.ok d)) =
                { status := d, intervalActive := false, pending := st.pending - 1,
                  navScheduled := st.navScheduled ++ ["/dashboard"] } := by
              simp [SyncingA.asyncStep, hp0, hdone]
            rw [hstep] at hser ⊢
            refine ih _ hser (by simp; omega) ?_ ?_ ?_
            · intro h
              simp at h
            · simp [hnil]
            · intro _
              exact ⟨rfl, hpend1⟩
          · have hdone' : SyncingA.isDone d = false := by
              revert hdone; cases SyncingA.isDone d <;> simp
            have hstep : SyncingA.asyncStep st (.deliver (.ok d)) =
                { st with status := d, pending := st.pending - 1 } := by
              simp [SyncingA.asyncStep, hp0, hdone']
            rw [hstep] at hser ⊢
            refine ih _ hser (by simp; omega) (fun _ => hnil) (Or.inl hnil) ?_
            intro h
            exact absurd hnil h

theorem syncingB_async_nav_invariant (events : List AsyncEvent) (st : AsyncState)
    (hser : SyncingB.serialized st events = true)
    (hp : st.pending ≤ 1)
    (hact : st.intervalActive = true → st.navScheduled = [])
    (hnav : st.navScheduled = [] ∨ st.navScheduled = ["/dashboard"])
    (hfin : st.navScheduled ≠ [] → st.intervalActive = false ∧ st.pending = 0) :
    ((SyncingB.asyncRun st events).navScheduled = [] ∨
      (SyncingB.asyncRun st events).navScheduled = ["/dashboard"]) := by
  induction events generalizing st with
  | nil => exact hnav
  | cons e es ih =>
    cases e with
    | fire =>
      rw [SyncingB.serialized, Bool.and_eq_true, beq_iff_eq] at hser
      obtain ⟨hp0, hser'⟩ := hser
      rw [SyncingB.asyncRun]
      by_cases hI : st.intervalActive = true
      · have hnil := hact hI
        refine ih _ ?_ ?_ ?_ ?_ ?_
        · simpa [SyncingB.asyncStep, hI] using hser'
        · simp [SyncingB.asyncStep, hI, hp0]
        · intro _
          simp [SyncingB.asyncStep, hI, hnil]
        · simp [SyncingB.asyncStep, hI, hnil]
        · intro h
          simp [SyncingB.asyncStep, hI, hnil] at h
      · have hI' : st.intervalActive = false := by
          revert hI; cases st.intervalActive <;> simp
        have hstep : SyncingB.asyncStep st .fire = st := by
          simp [SyncingB.asyncStep, hI']
        rw [hstep] at hser' ⊢
        exact ih st hser' hp hact hnav hfin
    | deliver r =>
      rw [SyncingB.serialized] at hser
      rw [SyncingB.asyncRun]
      by_cases hp0 : st.pending = 0
      · have hstep : SyncingB.asyncStep st (.deliver r) = st := by
          simp [SyncingB.asyncStep, hp0]
        rw [hstep] at hser ⊢
        exact ih st hser hp hact hnav hfin
      · have hnil : st.navScheduled = [] := by
          by_contra hne
          exact hp0 (hfin hne).2
        have hpend1 : st.pending - 1 = 0 := by omega
        match r with
        | .error _ =>
          have hstep : SyncingB.asyncStep st (.deliver (.error ())) =
              { st with pending := st.pending - 1 } := by
            simp [SyncingB.asyncStep, hp0]
          rw [hstep] at hser ⊢
          refine ih _ hser (by simp; omega) (fun _ => hnil) (Or.inl hnil) ?_
          intro h
          exact absurd hnil h
        | .ok d =>
          by_cases hdone : SyncingB.isDone d = true
          · have hstep : SyncingB.asyncStep st (.deliver (.ok d)) =
                { status := d, intervalActive := false, pending := st.pending - 1,
                  navScheduled := st.navScheduled ++ ["/dashboard"] } := by
              simp [SyncingB.asyncStep, hp0, hdone]
            rw [hstep] at hser ⊢
            refine ih _ hser (by simp; omega) ?_ ?_ ?_
            · intro h
              simp at h
            · simp [hnil]
            · intro _
              exact ⟨rfl, hpend1⟩
          · have hdone' : SyncingB.isDone d = false := by
              revert hdone; cases SyncingB.isDone d <;> simp
            have hstep : SyncingB.asyncStep st (.deliver (.ok d)) =
                { st with status := d, pending := st.pending - 1 } := by
              simp [SyncingB.asyncStep, hp0, hdone']
            rw [hstep] at hser ⊢
            refine ih _ hser (by simp; omega) (fun _ => hnil) (Or.inl hnil) ?_
            intro h
            exact absurd hnil h

/-! ## Claims -/

/-- C1 (as stated, refuted at `project_id = ""`): for the non-null but
falsy empty-string `project_id`, `if (!projectId) return` makes the
effect of both Syncing variants return early, so no cleanup is
registered — and no interval is created either. -/
theorem syncing_effect_cleanup_counterexample :
    SyncingA.effectCleanup (some "") = none ∧
    SyncingB.effectCleanup (some "") = none ∧
    (SyncingA.mount (some "")).intervalActive = false ∧
    (SyncingB.mount (some "")).intervalActive = false := by
  refine ⟨?_, ?_, by decide, by decide⟩ <;>
    simp [SyncingA.effectCleanup, SyncingB.effectCleanup, jsTruthyStr]

/-- C1 (amended): in both variants of the Syncing page, every mount
with a non-null and non-empty `project_id` registers the
interval-clearing cleanup in its effect, and once that cleanup has run
(on unmount or `project_id` change), any further interval firings
issue no status poll and leave the state untouched. -/
theorem syncing_effect_cleanup_stops_polls (pid : String) (hpid : pid ≠ "")
    (stA stB : SyncState) (respsA respsB : List (Except Unit StatusData)) :
    SyncingA.effectCleanup (some pid) = some SyncingA.cleanup ∧
    SyncingB.effectCleanup (some pid) = some SyncingB.cleanup ∧
    SyncingA.runTicks (SyncingA.cleanup stA) respsA = (SyncingA.cleanup stA, 0) ∧
    SyncingB.runTicks (SyncingB.cleanup stB) respsB = (SyncingB.cleanup stB, 0) :=
  ⟨by simp [SyncingA.effectCleanup, jsTruthyStr, hpid],
    by simp [SyncingB.effectCleanup, jsTruthyStr, hpid],
    syncingA_runTicks_inactive respsA _ rfl,
    syncingB_runTicks_inactive respsB _ rfl⟩

theorem syncing_effect_cleanup_stops_polls_witness :
    SyncingA.effectCleanup (some "p0") = some SyncingA.cleanup ∧
    SyncingB.effectCleanup (some "p0") = some SyncingB.cleanup ∧
    SyncingA.runTicks (SyncingA.cleanup (SyncingA.mount (some "p0"))) [] =
      (SyncingA.cleanup (SyncingA.mount (some "p0")), 0) ∧
    SyncingB.runTicks (SyncingB.cleanup (SyncingB.mount (some "p0"))) [] =
      (SyncingB.cleanup (SyncingB.mount (some "p0")), 0) :=
  syncing_effect_cleanup_stops_polls "p0" (by decide)
    (SyncingA.mount (some "p0")) (SyncingB.mount (some "p0")) [] []

/-- C2 (as stated, refuted by overlapping polls): `setInterval` fires
again while a slow poll is still in flight, and `clearInterval` cannot
suppress responses already in flight; two overlapping polls that both
see `'completed'` each clear the interval and each schedule a delayed
`navigate('/dashboard')`, so two navigations are scheduled — in both
variants. -/
theorem syncing_double_navigation_counterexample :
    (SyncingA.asyncRun (SyncingA.asyncMount (some "p"))
        [.fire, .fire, .deliver (.ok ⟨none, "completed", []⟩),
         .deliver (.ok ⟨none, "completed", []⟩)]).navScheduled =
      ["/dashboard", "/dashboard"] ∧
    (SyncingB.asyncRun (SyncingB.asyncMount (some "p"))
        [.fire, .fire, .deliver (.ok ⟨none, "completed", []⟩),
         .deliver (.ok ⟨none, "completed", []⟩)]).navScheduled =
      ["/dashboard", "/dashboard"] := by
  decide

/-- C2 (amended): in both Syncing variants, a delivered response
satisfying the done condition (`status === 'completed'`, or in the
first variant also a log line containing `'DONE'`) clears the interval
in the very step that schedules the single delayed
`navigate('/dashboard')`; and provided polls never overlap (every
response arrives before the interval next fires), at most one
navigation to `/dashboard` is ever scheduled over any event sequence
after mounting. -/
theorem syncing_navigates_at_most_once_amended (pid : String)
    (events : List AsyncEvent) (st : AsyncState) (d : StatusData)
    (hpend : 0 < st.pending)
    (hserA : SyncingA.serialized (SyncingA.asyncMount (some pid)) events = true)
    (hserB : SyncingB.serialized (SyncingB.asyncMount (some pid)) events = true) :
    (SyncingA.isDone d = true →
      SyncingA.asyncStep st (.deliver (.ok d)) =
        { status := d, intervalActive := false, pending := st.pending - 1,
          navScheduled := st.navScheduled ++ ["/dashboard"] }) ∧
    (SyncingB.isDone d = true →
      SyncingB.asyncStep st (.deliver (.ok d)) =
        { status := d, intervalActive := false, pending := st.pending - 1,
          navScheduled := st.navScheduled ++ ["/dashboard"] }) ∧
    ((SyncingA.asyncRun (SyncingA.asyncMount (some pid)) events).navScheduled = [] ∨
      (SyncingA.asyncRun (SyncingA.asyncMount (some pid)) events).navScheduled =
        ["/dashboard"]) ∧
    ((SyncingB.asyncRun (SyncingB.asyncMount (some pid)) events).navScheduled = [] ∨
      (SyncingB.asyncRun (SyncingB.asyncMount (some pid)) events).navScheduled =
        ["/dashboard"]) := by
  have hp0 : st.pending ≠ 0 := by omega
  refine ⟨?_, ?_, ?_, ?_⟩
  · intro hdone
    simp [SyncingA.asyncStep, hp0, hdone]
  · intro hdone
    simp [SyncingB.asyncStep, hp0, hdone]
  · exact syncingA_async_nav_invariant events (SyncingA.asyncMount (some pid))
      hserA (by simp [SyncingA.asyncMount]) (fun _ => rfl) (Or.inl rfl)
      (fun h => absurd rfl h)
  · exact syncingB_async_nav_invariant events (SyncingB.asyncMount (some pid))
      hserB (by simp [SyncingB.asyncMount]) (fun _ => rfl) (Or.inl rfl)
      (fun h => absurd rfl h)

theorem syncing_navigates_at_most_once_amended_witness :
    (SyncingA.asyncRun (SyncingA.asyncMount (some "p1"))
        [.fire, .deliver (.ok ⟨none, "completed", []⟩), .fire,
         .deliver (.ok ⟨none, "completed", []⟩)]).navScheduled = [] ∨
    (SyncingA.asyncRun (SyncingA.asyncMount (some "p1"))
        [.fire, .deliver (.ok ⟨none, "completed", []⟩), .fire,
         .deliver (.ok ⟨none, "completed", []⟩)]).navScheduled = ["/dashboard"] :=
  (syncing_navigates_at_most_once_amended "p1"
    [.fire, .deliver (.ok ⟨none, "completed", []⟩), .fire,
     .deliver (.ok ⟨none, "completed", []⟩)]
    ⟨SyncingA.initStatus, true, 1, []⟩ ⟨none, "completed", []⟩
    (by decide) (by decide) (by decide)).2.2.1

/-- C3: in both Syncing variants, a successful poll (fetch and JSON
parse both succeed) while the interval is active replaces the whole
displayed status object by exactly the response body, with no merging
or local modification. -/
theorem syncing_status_replaced_by_response (st : SyncState) (d : StatusData)
    (hact : st.intervalActive = true) :
    ((SyncingA.tick st (.ok d)).1.status = d) ∧
    ((SyncingB.tick st (.ok d)).1.status = d) := by
  constructor
  · by_cases hd : SyncingA.isDone d = true <;> simp [SyncingA.tick, hact, hd]
  · by_cases hd : SyncingB.isDone d = true <;> simp [SyncingB.tick, hact, hd]

theorem syncing_status_replaced_by_response_witness :
    ((SyncingA.tick (SyncingA.mount (some "p2"))
        (.ok ⟨none, "working", ["cloning repo"]⟩)).1.status =
      (⟨none, "working", ["cloning repo"]⟩ : StatusData)) ∧
    ((SyncingB.tick (SyncingA.mount (some "p2"))
        (.ok ⟨none, "working", ["cloning repo"]⟩)).1.status =
      (⟨none, "working", ["cloning repo"]⟩ : StatusData)) :=
  syncing_status_replaced_by_response (SyncingA.mount (some "p2"))
    ⟨none, "working", ["cloning repo"]⟩ rfl

/-- C5: the router maps `/` to Landing, `/login` and `/auth` to Auth,
`/signup` to SignUp, `/dashboard` to Dashboard, `/syncing` to Syncing,
and every other path to a redirect to `/`. -/
theorem app_routes_spec :
    route "/" = Page.landing ∧ route "/login" = Page.auth ∧
    route "/auth" = Page.auth ∧ route "/signup" = Page.signUp ∧
    route "/dashboard" = Page.dashboard ∧ route "/syncing" = Page.syncing ∧
    ∀ p : String,
      p ∉ (["/", "/login", "/auth", "/signup", "/dashboard", "/syncing"] :
        List String) →
      route p = Page.redirectTo "/" := by
  refine ⟨by decide, by decide, by decide, by decide, by decide, by decide, ?_⟩
  intro p hp
  simp only [List.mem_cons, List.not_mem_nil, or_false, not_or] at hp
  obtain ⟨h1, h2, h3, h4, h5, h6⟩ := hp
  simp [route, h1, h2, h3, h4, h5, h6]

theorem app_routes_spec_witness : route "/unknown" = Page.redirectTo "/" :=
  app_routes_spec.2.2.2.2.2.2 "/unknown" (by decide)

/-- C8: in both Syncing variants, a failed poll (network error or JSON
parse failure) is absorbed by the `catch`: the state — displayed
status, running interval, scheduled navigations — is left exactly as
it was, while the interval remains registered. -/
theorem syncing_poll_error_atomic (st : SyncState)
    (hact : st.intervalActive = true) :
    SyncingA.tick st (.error ()) = (st, true) ∧
    SyncingB.tick st (.error ()) = (st, true) := by
  constructor <;> simp [SyncingA.tick, SyncingB.tick, hact]

theorem syncing_poll_error_atomic_witness :
    SyncingA.tick (SyncingA.mount (some "p4")) (.error ()) =
      (SyncingA.mount (some "p4"), true) ∧
    SyncingB.tick (SyncingA.mount (some "p4")) (.error ()) =
      (SyncingA.mount (some "p4"), true) :=
  syncing_poll_error_atomic (SyncingA.mount (some "p4")) rfl

/-- C4: the thinking-log effect polls every 1000 ms while a chat
request is in flight with a project loaded; a successful poll whose
last brain-emoji log line is `t` rewrites the messages by giving every
thinking message the text of `t` with the emoji removed and trimmed,
leaving every non-thinking message unchanged; and a poll whose log
lines contain no brain emoji leaves the messages list unchanged. -/
theorem dashboard_thinking_poll_updates (msgs : List Dashboard.Message)
    (p : Dashboard.Project) (stat : String) (ls : List String) (t : String) :
    Dashboard.chatPollIntervalMs = 1000 ∧
    (p.id ≠ "" → Dashboard.chatPollActive true (some p) = true) ∧
    (Dashboard.lastThought ls = some t →
      Dashboard.thinkingPollTick msgs (.ok ⟨stat, some ls⟩) =
        msgs.map (Dashboard.applyThought t)) ∧
    (∀ m : Dashboard.Message, m.isThinking = false →
      Dashboard.applyThought t m = m) ∧
    (∀ m : Dashboard.Message, m.isThinking = true →
      (Dashboard.applyThought t m).thinkingText =
        some (jsTrim (jsRemoveFirstChar t Dashboard.brain)) ∧
      (Dashboard.applyThought t m).role = m.role ∧
      (Dashboard.applyThought t m).content = m.content ∧
      (Dashboard.applyThought t m).isThinking = m.isThinking) ∧
    ((∀ l ∈ ls, jsIncludesChar l Dashboard.brain = false) →
      Dashboard.thinkingPollTick msgs (.ok ⟨stat, some ls⟩) = msgs) := by
  refine ⟨rfl, ?_, ?_, ?_, ?_, ?_⟩
  · intro h
    simp [Dashboard.chatPollActive, h]
  · intro h
    have hne : ls ≠ [] := by
      intro e
      subst e
      simp [Dashboard.lastThought] at h
    have hlen : ls.length > 0 := List.length_pos.mpr hne
    simp [Dashboard.thinkingPollTick, hlen, h]
  · intro m hm
    simp [Dashboard.applyThought, hm]
  · intro m hm
    simp [Dashboard.applyThought, hm]
  · intro h
    have hnone : Dashboard.lastThought ls = none := by
      unfold Dashboard.lastThought
      rw [List.filter_eq_nil_iff.mpr]
      · rfl
      · intro a ha
        simp [h a ha]
    by_cases hlen : ls.length > 0 <;>
      simp [Dashboard.thinkingPollTick, hlen, hnone]

theorem dashboard_thinking_poll_updates_witness :
    Dashboard.thinkingPollTick
        [{ role := "lumis", content := "...", isThinking := true }]
        (.ok ⟨"processing", some ["🧠 scanning files"]⟩) =
      [{ role := "lumis", content := "...", isThinking := true,
         thinkingText := some "scanning files" }] := by
  have h := (dashboard_thinking_poll_updates
      [{ role := "lumis", content := "...", isThinking := true }]
      ⟨"p3", "https://github.com/a/b", none⟩ "processing"
      ["🧠 scanning files"] "🧠 scanning files").2.2.1 (by decide)
  rw [h]
  decide

/-- C6: on Dashboard boot with a session and a project row, a polled
ingest status of `'starting'` or `'processing'` makes boot navigate to
`/syncing?project_id=` followed by the project id without touching the
risks endpoint; any other polled status keeps the user on the
dashboard, fetches the risks, and stores them exactly when that
response has status `'success'`. -/
theorem dashboard_boot_syncing_redirect (s : Dashboard.Session)
    (p : Dashboard.Project) (stat : String)
    (rr : Except Unit Dashboard.RisksResp) :
    (stat = "starting" ∨ stat = "processing" →
      Dashboard.boot ⟨some s, some p, .ok ⟨stat⟩, rr⟩ =
        { navTarget := some ("/syncing?project_id=" ++ p.id),
          appState := "READY", risks := [], riskFetchAttempted := false }) ∧
    (stat ≠ "starting" → stat ≠ "processing" →
      (Dashboard.boot ⟨some s, some p, .ok ⟨stat⟩, rr⟩).navTarget = none ∧
      (Dashboard.boot ⟨some s, some p, .ok ⟨stat⟩, rr⟩).appState = "READY" ∧
      (Dashboard.boot ⟨some s, some p, .ok ⟨stat⟩, rr⟩).riskFetchAttempted = true ∧
      ∀ d : Dashboard.RisksResp, rr = .ok d →
        (Dashboard.boot ⟨some s, some p, .ok ⟨stat⟩, rr⟩).risks =
          (if d.status = "success" then d.risks else [])) := by
  constructor
  · rintro (h | h) <;> subst h <;> simp [Dashboard.boot]
  · intro hn1 hn2
    refine ⟨?_, ?_, ?_, ?_⟩
    · simp [Dashboard.boot, hn1, hn2]
    · simp [Dashboard.boot, hn1, hn2]
    · simp [Dashboard.boot, hn1, hn2]
    · rintro d rfl
      simp [Dashboard.boot, hn1, hn2]

theorem dashboard_boot_syncing_redirect_witness :
    Dashboard.boot ⟨some ⟨"u1"⟩, some ⟨"p9", "https://github.com/a/b", none⟩,
        .ok ⟨"processing"⟩, .error ()⟩ =
      { navTarget := some "/syncing?project_id=p9", appState := "READY",
        risks := [], riskFetchAttempted := false } :=
  ((dashboard_boot_syncing_redirect ⟨"u1"⟩ ⟨"p9", "https://github.com/a/b", none⟩
    "processing" (.error ())).1 (Or.inr rfl)).trans (by decide)

/-- C7 (as stated, refuted at `last_commit = some ""`): the commit
section renders `'PENDING'` with the amber indicator for a present but
empty `last_commit`, not its first 7 characters with the green one. -/
theorem commit_display_present_counterexample :
    ¬ (Dashboard.commitDisplay (some "") = (jsSubstring0 "" 7, "#10b981")) := by
  decide

/-- C7 (amended): the commit section shows the first 7 characters of
`last_commit` with the green indicator whenever it is present and
non-empty, and the literal `'PENDING'` with the amber indicator when
it is absent or empty. -/
theorem commit_display_amended (lc : Option String) :
    (∀ c, lc = some c → c ≠ "" →
      Dashboard.commitDisplay lc = (jsSubstring0 c 7, "#10b981")) ∧
    (lc = none ∨ lc = some "" →
      Dashboard.commitDisplay lc = ("PENDING", "#f59e0b")) := by
  constructor
  · rintro c rfl hc
    simp [Dashboard.commitDisplay, hc]
  · rintro (rfl | rfl) <;> simp [Dashboard.commitDisplay]

theorem commit_display_amended_witness :
    Dashboard.commitDisplay (some "0123456789abcdef") =
      (jsSubstring0 "0123456789abcdef" 7, "#10b981") ∧
    Dashboard.commitDisplay none = ("PENDING", "#f59e0b") :=
  ⟨(commit_display_amended (some "0123456789abcdef")).1 "0123456789abcdef" rfl
      (by decide),
    (commit_display_amended none).2 (Or.inl rfl)⟩

/-- C9: `handleChat` is a no-op when the trimmed input is empty or a
chat request is already in flight: the state is returned unchanged and
no request is sent. -/
theorem handle_chat_guard_noop (st : Dashboard.ChatState)
    (r : Except Unit Dashboard.ChatResponse)
    (h : jsTrim st.input = "" ∨ st.chatLoading = true) :
    Dashboard.handleChat st r = (st, false) := by
  rcases h with h | h <;> simp [Dashboard.handleChat, h]

theorem handle_chat_guard_noop_witness :
    Dashboard.handleChat ⟨[], "   ", false⟩ (.ok ⟨"hi"⟩) =
      (⟨[], "   ", false⟩, false) :=
  handle_chat_guard_noop ⟨[], "   ", false⟩ (.ok ⟨"hi"⟩) (Or.inl (by decide))

/-- C10: when `handleChat` runs with non-blank input and no request in
flight, the settled state has `chatLoading` false, no thinking message
remains, and the last message is a `lumis` message carrying the
response body's `response` field on success and the fixed error text
on failure. -/
theorem handle_chat_settles (st : Dashboard.ChatState)
    (r : Except Unit Dashboard.ChatResponse)
    (hin : jsTrim st.input ≠ "") (hload : st.chatLoading = false) :
    (Dashboard.handleChat st r).1.chatLoading = false ∧
    (∀ m ∈ (Dashboard.handleChat st r).1.messages, m.isThinking = false) ∧
    (∀ d, r = .ok d → (Dashboard.handleChat st r).1.messages.getLast? =
      some { role := "lumis", content := d.response }) ∧
    (∀ e : Unit, r = .error e →
      (Dashboard.handleChat st r).1.messages.getLast? =
        some { role := "lumis", content := "Error: Could not reach Lumis Core." }) := by
  have hbeq : (jsTrim st.input == "") = false := by simp [hin]
  refine ⟨?_, ?_, ?_, ?_⟩
  · cases r <;> simp [Dashboard.handleChat, hbeq, hload]
  · intro m hm
    cases r <;>
    · simp only [Dashboard.handleChat, hbeq, hload, Bool.or_false,
        Bool.false_eq_true, if_false] at hm
      rcases List.mem_append.mp hm with h | h
      · have h2 := (List.mem_filter.mp h).2
        simpa using h2
      · rcases List.mem_singleton.mp h with rfl
        rfl
  · rintro d rfl
    simp [Dashboard.handleChat, hbeq, hload]
  · rintro e rfl
    simp [Dashboard.handleChat, hbeq, hload]

theorem handle_chat_settles_witness :
    (Dashboard.handleChat ⟨[], "q", false⟩ (.error ())).1.messages.getLast? =
      some { role := "lumis", content := "Error: Could not reach Lumis Core." } :=
  (handle_chat_settles ⟨[], "q", false⟩ (.error ()) (by decide) rfl).2.2.2 () rfl

end Lumis
